import Mathlib

/-!
Shallow embedding of the `pooh-rs` crate (files `src/ext.rs` and `src/net.rs`)
together with proofs settling the specification claims about it.

Buffers `&[u8]` are modelled as `List (Fin 256)`; machine integers are `Nat`
with explicit `% 2 ^ w` where the Rust code can wrap (release semantics).
OS and network effects (socket syscalls, the address parsers of the standard
library, the actual dial attempts) are modelled as explicit oracle inputs,
so the pure control flow of the Rust functions is what is embedded.
-/

namespace PoohRs

/-- A byte of a `[u8]` buffer. -/
abbrev Byte := Fin 256

/-! ## `BytesExt` (src/ext.rs)

`fn u16/u32/u64/usize` are `self.iter().take(n).fold(0, |a, b| (a << 8) + b)`
at the respective register width; the `% 2 ^ w` models the register
(with `take n` it can never actually wrap). -/

/-- `<[u8] as BytesExt>::u16`. -/
def u16 (b : List Byte) : Nat :=
  (b.take 2).foldl (fun a x => ((a <<< 8) + x.val) % 65536) 0

/-- `<[u8] as BytesExt>::u32`. -/
def u32 (b : List Byte) : Nat :=
  (b.take 4).foldl (fun a x => ((a <<< 8) + x.val) % 4294967296) 0

/-- `<[u8] as BytesExt>::u64`. -/
def u64 (b : List Byte) : Nat :=
  (b.take 8).foldl (fun a x => ((a <<< 8) + x.val) % 18446744073709551616) 0

/-- `<[u8] as BytesExt>::usize` on a platform whose pointer width is `bits`
(the source uses `usize::BITS / 8` bytes and a `usize` accumulator). -/
def usizeD (bits : Nat) (b : List Byte) : Nat :=
  (b.take (bits / 8)).foldl (fun a x => ((a <<< 8) + x.val) % 2 ^ bits) 0

/-- Big-endian value of a byte list (the specification's "big-endian unsigned
integer formed from" a sequence of bytes). -/
def beVal (l : List Byte) : Nat :=
  l.foldl (fun a x => a * 256 + x.val) 0

/-- Modelled from the claim's words for C3: the value of the buffer
zero-padded on the right to `n` bytes. -/
def rightPadVal (n : Nat) (b : List Byte) : Nat :=
  beVal (b.take n ++ List.replicate (n - b.length) 0)

/-! ## `checksum` (src/ext.rs)

```rust
fn checksum(&self) -> u16 {
    let length = self.len() - 1;
    let mut csum = 0u32;
    for i in (0..length).step_by(2) {
        csum += ((self[i] as u32) << 8) + (self[i + 1] as u32)
    }
    if length % 2 == 0 {
        csum += (self[length] as u32) << 8
    }
    while csum > 0xffff {
        csum = (csum >> 16) + (csum & 0xffff)
    }
    !csum as u16
}
```
-/

/-- The `for i in (0..length).step_by(2)` loop of `checksum`, with `fuel` the
number of remaining iterations, `i` the current index and `acc` the `u32`
accumulator (additions wrap `% 2 ^ 32`). -/
def csumStep (b : List Byte) : Nat → Nat → Nat → Nat
  | 0, _, acc => acc
  | fuel + 1, i, acc =>
      csumStep b fuel (i + 2)
        ((acc + (((b.getD i 0).val <<< 8) + (b.getD (i + 1) 0).val)) % 4294967296)

/-- Panic-aware version of the loop: slice indexing `self[i]` is `b[i]?`, and
an out-of-bounds access is the `none` outcome (a Rust panic). -/
def csumStepP (b : List Byte) : Nat → Nat → Nat → Option Nat
  | 0, _, acc => some acc
  | fuel + 1, i, acc =>
      match b[i]?, b[i + 1]? with
      | some x, some y =>
          csumStepP b fuel (i + 2) ((acc + ((x.val <<< 8) + y.val)) % 4294967296)
      | _, _ => none

/-- The `while csum > 0xffff` carry-folding loop. -/
def foldCarry (s : Nat) : Nat :=
  if 65535 < s then foldCarry ((s >>> 16) + (s &&& 65535)) else s
termination_by s
decreasing_by
  rename_i h
  rw [Nat.shiftRight_eq_div_pow]
  have h15 : s &&& 65535 = s % 65536 := by
    have := Nat.and_pow_two_sub_one_eq_mod s 16
    norm_num at this
    omega
  rw [h15]
  have h1 : 1 ≤ s / 2 ^ 16 := (Nat.one_le_div_iff (by norm_num)).mpr (by omega)
  omega

/-- `checksum`, on the inputs where it does not panic (see `checksumP`):
the loop runs `(length + 1) / 2` times (the even `i < length`), the final
byte is folded in when `length` is even, carries are folded, and the result
is `!csum as u16`, i.e. the 32-bit complement truncated to 16 bits. -/
def checksum (b : List Byte) : Nat :=
  let length := b.length - 1
  let s0 := csumStep b ((length + 1) / 2) 0 0
  let s1 := if length % 2 = 0 then (s0 + ((b.getD length 0).val <<< 8)) % 4294967296 else s0
  (4294967295 - foldCarry s1) % 65536

/-- Panic-aware model of `checksum`: `none` is a Rust panic.  On the empty
buffer `self.len() - 1` underflows (a panic in debug builds; in release it
wraps and the first loop iteration indexes out of bounds, also a panic), so
the empty buffer is mapped to `none` outright. -/
def checksumP (b : List Byte) : Option Nat :=
  if b.length = 0 then none
  else
    let length := b.length - 1
    match csumStepP b ((length + 1) / 2) 0 0 with
    | none => none
    | some s0 =>
        if length % 2 = 0 then
          match b[length]? with
          | none => none
          | some x => some ((4294967295 - foldCarry ((s0 + (x.val <<< 8)) % 4294967296)) % 65536)
        else some ((4294967295 - foldCarry s0) % 65536)

/-- Modelled from the claim's words for C2: the unbounded sum of the 16-bit
big-endian words `(b[i] << 8) + b[i+1]` for `i = 0, 2, 4, ...` below the
bound, starting at index `i`, for `m` remaining words. -/
def pairSumFrom (b : List Byte) : Nat → Nat → Nat
  | 0, _ => 0
  | m + 1, i =>
      (((b.getD i 0).val <<< 8) + (b.getD (i + 1) 0).val) + pairSumFrom b m (i + 2)

/-- The claim's word sum for the whole buffer: iteration bound
`length = len - 1`, plus the zero-padded final byte when `length` is even. -/
def rawSum (b : List Byte) : Nat :=
  let length := b.length - 1
  let s := pairSumFrom b ((length + 1) / 2) 0
  if length % 2 = 0 then s + ((b.getD length 0).val <<< 8) else s

/-- Modelled from the claim's words for C2: sum the words without any
register bound, fold the carries, and return the one's complement of the
16-bit result. -/
def specChecksum (b : List Byte) : Nat :=
  65535 - foldCarry (rawSum b)

/-! ## `strip_ipv4_header` (src/net.rs)

```rust
pub fn strip_ipv4_header(b: &[u8]) -> &[u8] {
    if b.len() < 20 { return b; }
    if b[0] >> 4 != 4 { return b; }
    let l = ((b[0] & 0x0f) as usize) << 2;
    if 20 > l || l > b.len() { return b; }
    return &b[l..];
}
```
The `b[0]` access is guarded by `b.len() >= 20`, so `getD` is exact here. -/

/-- `strip_ipv4_header`. -/
def strip_ipv4_header (b : List Byte) : List Byte :=
  if b.length < 20 then b
  else
    let b0 := (b.getD 0 0).val
    if b0 >>> 4 ≠ 4 then b
    else
      let l := (b0 &&& 15) <<< 2
      if 20 > l ∨ l > b.length then b
      else b.drop l

/-! ## `DualAddr` dialing (src/net.rs)

The dial attempts themselves are network effects
(`SocketAddrExt::dial_tcp/dial_udp/dial_icmpv4/dial_icmpv6`); they are
modelled as oracle functions `A4 → Except E T` and `A6 → Except E T` giving
the outcome of dialing each address of that family.  What is embedded is the
outcome-combination logic of `any_success` and `DualAddr::dial_*`. -/

/-- `DualAddr`. -/
inductive DualAddr (A4 A6 : Type) where
  | V4 (a : A4)
  | V6 (a : A6)
  | Both (a4 : A4) (a6 : A6)

/-- `fn any_success(res1, res2)`. -/
def any_success {E T : Type} (res1 res2 : Except E T) :
    Except E (Option T × Option T) :=
  match res1 with
  | .ok sock1 =>
      .ok (match res2 with
           | .ok sock2 => (some sock1, some sock2)
           | _ => (some sock1, none))
  | .error err1 =>
      match res2 with
      | .ok sock2 => .ok (none, some sock2)
      | _ => .error err1

/-- `DualAddr::dial_tcp`, with `tcp4`/`tcp6` the per-family dial oracles.
`?` on the single-family branches propagates the error. -/
def DualAddr.dial_tcp {A4 A6 E T : Type} (tcp4 : A4 → Except E T)
    (tcp6 : A6 → Except E T) : DualAddr A4 A6 → Except E (Option T × Option T)
  | .V4 addr =>
      match tcp4 addr with
      | .ok s => .ok (some s, none)
      | .error e => .error e
  | .V6 addr =>
      match tcp6 addr with
      | .ok s => .ok (none, some s)
      | .error e => .error e
  | .Both addr_v4 addr_v6 => any_success (tcp4 addr_v4) (tcp6 addr_v6)

/-- `DualAddr::dial_udp`. -/
def DualAddr.dial_udp {A4 A6 E T : Type} (udp4 : A4 → Except E T)
    (udp6 : A6 → Except E T) : DualAddr A4 A6 → Except E (Option T × Option T)
  | .V4 addr =>
      match udp4 addr with
      | .ok s => .ok (some s, none)
      | .error e => .error e
  | .V6 addr =>
      match udp6 addr with
      | .ok s => .ok (none, some s)
      | .error e => .error e
  | .Both addr_v4 addr_v6 => any_success (udp4 addr_v4) (udp6 addr_v6)

/-- `DualAddr::dial_icmp` (IPv4 side uses `dial_icmpv4`, IPv6 side
`dial_icmpv6`). -/
def DualAddr.dial_icmp {A4 A6 E T : Type} (icmp4 : A4 → Except E T)
    (icmp6 : A6 → Except E T) : DualAddr A4 A6 → Except E (Option T × Option T)
  | .V4 addr =>
      match icmp4 addr with
      | .ok s => .ok (some s, none)
      | .error e => .error e
  | .V6 addr =>
      match icmp6 addr with
      | .ok s => .ok (none, some s)
      | .error e => .error e
  | .Both addr_v4 addr_v6 => any_success (icmp4 addr_v4) (icmp6 addr_v6)

/-! ## `bind` (src/net.rs)

```rust
pub fn bind(r#type: BindType, addr: &str) -> io::Result<Socket> {
    let sock = match r#type { ... Socket::new(domain, type, proto)? ... };
    match r#type {
        BindType::IPv6Tcp | BindType::IPv6Udp => {
            sock.set_only_v6(true)?;
            sock.bind(&addr.parse::<std::net::SocketAddrV6>().unwrap().into())?;
        }
        _ => {
            sock.bind(&addr.parse::<std::net::SocketAddrV4>().unwrap().into())?;
        }
    };
    match r#type {
        BindType::IPv4Tcp | BindType::IPv6Tcp => { sock.listen(16)?; }
        _ => {}
    };
    Ok(sock)
}
```
The syscalls and the standard-library address parsers are not part of the
crate; they enter as an oracle record `OsEnv`: each field is the outcome the
OS/parser would give if that call is reached.  `.unwrap()` on a failed parse
is a panic, modelled by the `panic` result. -/

/-- `BindType`. -/
inductive BindType where
  | IPv4Tcp
  | IPv4Udp
  | IPv4Icmp
  | IPv6Tcp
  | IPv6Udp
  | IPv6Icmp
deriving DecidableEq

/-- The socket domain of `Socket::new`. -/
inductive Domain where
  | ipv4
  | ipv6
deriving DecidableEq

/-- The socket type of `Socket::new`. -/
inductive SockKind where
  | stream
  | dgram
  | raw
deriving DecidableEq

/-- The protocol argument of `Socket::new`. -/
inductive Proto where
  | icmpv4
  | icmpv6
deriving DecidableEq

/-- The `(Domain, Type, Protocol)` triple `bind` passes to `Socket::new`
for each `BindType` (first `match` of the source). -/
def newSockArgs : BindType → Domain × SockKind × Option Proto
  | .IPv4Tcp => (.ipv4, .stream, none)
  | .IPv4Udp => (.ipv4, .dgram, none)
  | .IPv4Icmp => (.ipv4, .raw, some .icmpv4)
  | .IPv6Tcp => (.ipv6, .stream, none)
  | .IPv6Udp => (.ipv6, .dgram, none)
  | .IPv6Icmp => (.ipv6, .raw, some .icmpv6)

/-- Observable events on a socket during `bind`, in call order. -/
inductive BindEvent (A4 A6 : Type) where
  | created
  | setOnlyV6
  | boundV4 (a : A4)
  | boundV6 (a : A6)
  | listened

/-- The socket `bind` returns: its creation arguments, whether the
IPv6-only option is set, and the ordered syscall trace. -/
structure Socket (A4 A6 : Type) where
  domain : Domain
  kind : SockKind
  proto : Option Proto
  onlyV6 : Bool
  events : List (BindEvent A4 A6)

/-- OS / parser oracle for one `bind` call: the outcome each syscall or
parse would produce if reached.  `parse4`/`parse6` are the results of
`addr.parse::<SocketAddrV4/V6>()` (`none` = malformed for that family). -/
structure OsEnv (A4 A6 E : Type) where
  newRes : Except E Unit
  setV6Res : Except E Unit
  parse4 : Option A4
  parse6 : Option A6
  bindRes : Except E Unit
  listenRes : Except E Unit

/-- Result of `bind`: a socket, a propagated `io::Error`, or a panic
(the `.unwrap()` of a failed address parse). -/
inductive BindResult (A4 A6 E : Type) where
  | ok (s : Socket A4 A6)
  | err (e : E)
  | panic

/-- `fn bind(r#type, addr)` under the oracle `env`. -/
def bind {A4 A6 E : Type} (t : BindType) (env : OsEnv A4 A6 E) :
    BindResult A4 A6 E :=
  match env.newRes with
  | .error e => .err e
  | .ok _ =>
    let args := newSockArgs t
    let sock : Socket A4 A6 :=
      { domain := args.1, kind := args.2.1, proto := args.2.2, onlyV6 := false,
        events := [BindEvent.created] }
    let afterBind : BindResult A4 A6 E :=
      match t with
      | .IPv6Tcp | .IPv6Udp =>
        match env.setV6Res with
        | .error e => .err e
        | .ok _ =>
          let sock := { sock with onlyV6 := true, events := sock.events ++ [BindEvent.setOnlyV6] }
          match env.parse6 with
          | none => .panic
          | some a =>
            match env.bindRes with
            | .error e => .err e
            | .ok _ => .ok { sock with events := sock.events ++ [BindEvent.boundV6 a] }
      | _ =>
        match env.parse4 with
        | none => .panic
        | some a =>
          match env.bindRes with
          | .error e => .err e
          | .ok _ => .ok { sock with events := sock.events ++ [BindEvent.boundV4 a] }
    match t with
    | .IPv4Tcp | .IPv6Tcp =>
      match afterBind with
      | .ok sock =>
        match env.listenRes with
        | .error e => .err e
        | .ok _ => .ok { sock with events := sock.events ++ [BindEvent.listened] }
      | r => r
    | _ => afterBind

/-- The `BindType`s handled by the `IPv6Tcp | IPv6Udp` branch of the second
`match` (the branch that sets the IPv6-only option and parses a V6 address). -/
def BindType.v6Branch : BindType → Bool
  | .IPv6Tcp | .IPv6Udp => true
  | _ => false

/-- The `BindType`s that `listen(16)` in the third `match`. -/
def BindType.listens : BindType → Bool
  | .IPv4Tcp | .IPv6Tcp => true
  | _ => false

/-! ## Helper lemmas -/

theorem getElemQ_eq (l : List Byte) (i : Nat) (h : i < l.length) :
    l[i]? = some (l.getD i 0) := by
  induction l generalizing i with
  | nil => simp at h
  | cons x xs ih =>
    cases i with
    | zero => simp [List.getD]
    | succ j =>
      have hj : j < xs.length := by simpa using h
      simpa [List.getD] using ih j hj

theorem getD_replicate (N i : Nat) (x d : Byte) (h : i < N) :
    (List.replicate N x).getD i d = x := by
  induction N generalizing i with
  | zero => omega
  | succ n ih =>
    cases i with
    | zero => rfl
    | succ j => simpa [List.replicate, List.getD] using ih j (by omega)

theorem csumStepP_eq (b : List Byte) (m : Nat) :
    ∀ i acc, i + 2 * m ≤ b.length →
      csumStepP b m i acc = some (csumStep b m i acc) := by
  induction m with
  | zero => intro i acc _; rfl
  | succ k ih =>
    intro i acc h
    have hi : i < b.length := by omega
    have hi1 : i + 1 < b.length := by omega
    rw [csumStepP, csumStep, getElemQ_eq b i hi, getElemQ_eq b (i + 1) hi1]
    exact ih (i + 2) _ (by omega)

theorem csumStep_eq_pairSum (b : List Byte) (m : Nat) :
    ∀ i acc, csumStep b m i (acc % 4294967296) =
      (acc + pairSumFrom b m i) % 4294967296 := by
  induction m with
  | zero => intro i acc; simp [csumStep, pairSumFrom]
  | succ k ih =>
    intro i acc
    rw [csumStep, pairSumFrom, Nat.mod_add_mod, ih (i + 2) _]
    ring_nf

theorem checksum_rawSum (b : List Byte) :
    checksum b = (4294967295 - foldCarry (rawSum b % 4294967296)) % 65536 := by
  have hc : csumStep b ((b.length - 1 + 1) / 2) 0 0 =
      pairSumFrom b ((b.length - 1 + 1) / 2) 0 % 4294967296 := by
    simpa using csumStep_eq_pairSum b ((b.length - 1 + 1) / 2) 0 0
  by_cases hpar : (b.length - 1) % 2 = 0
  · simp only [checksum, rawSum, if_pos hpar, hc, Nat.mod_add_mod]
  · simp only [checksum, rawSum, if_neg hpar, hc]

theorem foldCarry_closed (s : Nat) :
    foldCarry s = if s = 0 then 0 else (s - 1) % 65535 + 1 := by
  induction s using Nat.strong_induction_on with
  | _ s ih =>
    rw [foldCarry]
    have h15 : s &&& 65535 = s % 65536 := by
      have := Nat.and_pow_two_sub_one_eq_mod s 16
      norm_num at this
      omega
    rw [Nat.shiftRight_eq_div_pow, h15]
    norm_num
    split
    · rename_i h
      have h1 : 1 ≤ s / 65536 := (Nat.one_le_div_iff (by norm_num)).mpr (by omega)
      rw [ih (s / 65536 + s % 65536) (by omega)]
      split <;> split <;> omega
    · split <;> omega

theorem foldCarry_le (s : Nat) : foldCarry s ≤ 65535 := by
  rw [foldCarry_closed]
  split <;> omega

theorem beFold_le (l : List Byte) :
    ∀ a : Nat, a ≤ l.foldl (fun a x => a * 256 + x.val) a := by
  induction l with
  | nil => intro a; exact le_refl a
  | cons x xs ih =>
    intro a
    have h1 : a ≤ a * 256 + x.val := by omega
    exact le_trans h1 (ih (a * 256 + x.val))

theorem beFold_lt (l : List Byte) :
    ∀ a : Nat, l.foldl (fun a x => a * 256 + x.val) a < (a + 1) * 256 ^ l.length := by
  induction l with
  | nil => intro a; simp
  | cons x xs ih =>
    intro a
    have h1 := ih (a * 256 + x.val)
    have hstep : a * 256 + x.val + 1 ≤ (a + 1) * 256 := by
      have := x.isLt
      omega
    have h2 : (a * 256 + x.val + 1) * 256 ^ xs.length ≤ ((a + 1) * 256) * 256 ^ xs.length :=
      Nat.mul_le_mul_right _ hstep
    have h3 : ((a + 1) * 256) * 256 ^ xs.length = (a + 1) * 256 ^ (xs.length + 1) := by
      ring
    simp only [List.foldl_cons, List.length_cons]
    omega

theorem beFold_mod_eq (l : List Byte) :
    ∀ (a M : Nat), l.foldl (fun a x => a * 256 + x.val) a < M →
      l.foldl (fun a x => ((a <<< 8) + x.val) % M) a =
        l.foldl (fun a x => a * 256 + x.val) a := by
  induction l with
  | nil => intro a M _; rfl
  | cons x xs ih =>
    intro a M h
    simp only [List.foldl_cons] at h ⊢
    have hsh : a <<< 8 = a * 256 := by
      rw [Nat.shiftLeft_eq]
    have hlt : a * 256 + x.val < M := lt_of_le_of_lt (beFold_le xs _) h
    rw [hsh, Nat.mod_eq_of_lt hlt]
    exact ih _ M h

theorem decode_take_beVal (n M : Nat) (hM : 256 ^ n ≤ M) (b : List Byte) :
    (b.take n).foldl (fun a x => ((a <<< 8) + x.val) % M) 0 = beVal (b.take n) := by
  have h1 := beFold_lt (b.take n) 0
  simp only [Nat.zero_add, Nat.one_mul] at h1
  have hlen : (b.take n).length ≤ n := by simp
  have hp : (256 : Nat) ^ (b.take n).length ≤ 256 ^ n :=
    Nat.pow_le_pow_right (by norm_num) hlen
  exact beFold_mod_eq _ 0 M (by omega)

theorem foldMod_zeros (m M : Nat) :
    (List.replicate m (0 : Byte)).foldl (fun a x => ((a <<< 8) + x.val) % M) 0 = 0 := by
  induction m with
  | zero => rfl
  | succ k ih => simpa [List.replicate] using ih

/-! ## Claim theorems -/

/-- Claim C3 (amended): each decode operation `u16`/`u32`/`u64`/`usize`
returns the big-endian unsigned integer formed from the first
`min(N/8, len)` bytes of the buffer — i.e. a buffer shorter than `N/8`
bytes is implicitly zero-padded on the LEFT (its bytes keep their own
positional weight), not on the right; the operation is total for all
buffer lengths including empty. -/
theorem decode_prefix_value :
    (∀ b : List Byte, u16 b = beVal (b.take 2)) ∧
    (∀ b : List Byte, u32 b = beVal (b.take 4)) ∧
    (∀ b : List Byte, u64 b = beVal (b.take 8)) ∧
    (∀ bits : Nat, 8 ∣ bits →
      ∀ b : List Byte, usizeD bits b = beVal (b.take (bits / 8))) := by
  refine ⟨fun b => ?_, fun b => ?_, fun b => ?_, fun bits hb b => ?_⟩
  · exact decode_take_beVal 2 65536 (by norm_num) b
  · exact decode_take_beVal 4 4294967296 (by norm_num) b
  · exact decode_take_beVal 8 18446744073709551616 (by norm_num) b
  · refine decode_take_beVal (bits / 8) (2 ^ bits) ?_ b
    obtain ⟨k, rfl⟩ := hb
    have h8 : 8 * k / 8 = k := by omega
    rw [h8, show (256 : Nat) = 2 ^ 8 from by norm_num, ← pow_mul]

/-- Witness for C3: the pointer-width conjunct applied at 64 bits on the
buffer `[0x12, 0x34]`. -/
theorem decode_prefix_value_witness :
    (8 ∣ 64) ∧ usizeD 64 [18, 52] = beVal (([18, 52] : List Byte).take 8) :=
  ⟨by norm_num, decode_prefix_value.2.2.2 64 (by norm_num) [18, 52]⟩

/-- Counterexample for C3 as stated: on the one-byte buffer `[0x12]`
decoded at width 16 the code returns `0x12`, while the value of the buffer
zero-padded on the right to 2 bytes is `0x1200`. -/
theorem decode_right_pad_counterexample :
    u16 [18] = 18 ∧ rightPadVal 2 [18] = 4608 ∧ u16 [18] ≠ rightPadVal 2 [18] := by
  refine ⟨by decide, by decide, by decide⟩

/-- Claim C9: decoding depends only on the leading bytes — every all-zero
buffer decodes to 0 at each width (in particular lengths 0 through 8), and
any buffer starting with `0x12, 0x34` decodes to `0x1234` at width 16
regardless of trailing bytes. -/
theorem decode_prefix_examples :
    (∀ k : Nat, u16 (List.replicate k 0) = 0 ∧ u32 (List.replicate k 0) = 0 ∧
      u64 (List.replicate k 0) = 0 ∧
      ∀ bits : Nat, usizeD bits (List.replicate k 0) = 0) ∧
    (∀ rest : List Byte, u16 (18 :: 52 :: rest) = 4660) := by
  constructor
  · intro k
    refine ⟨?_, ?_, ?_, fun bits => ?_⟩ <;>
      simp only [u16, u32, u64, usizeD, List.take_replicate] <;>
      exact foldMod_zeros _ _
  · intro rest
    have ht : (18 :: 52 :: rest).take 2 = ([18, 52] : List Byte) := rfl
    simp only [u16, ht]
    decide

theorem pairSum_replicate (N : Nat) (x : Byte) (m : Nat) :
    ∀ i, i + 2 * m ≤ N →
      pairSumFrom (List.replicate N x) m i = m * ((x.val <<< 8) + x.val) := by
  induction m with
  | zero => intro i _; simp [pairSumFrom]
  | succ k ih =>
    intro i h
    rw [pairSumFrom, getD_replicate N i x 0 (by omega),
      getD_replicate N (i + 1) x 0 (by omega), ih (i + 2) (by omega)]
    ring

/-- Claim C2 (amended): for every non-empty byte buffer `b` whose 16-bit
word sum is below `2^32` — in particular every buffer of length at most
131072 bytes — `checksum b` follows exactly the stated algorithm: sum the
big-endian words `(b[i] << 8) + b[i+1]` for even `i` below
`length = len(b) - 1`, add the zero-padded final byte when `length` is
even, fold the carries out of the low 16 bits, and return the one's
complement; the implementation accumulates in a 32-bit register, so a
larger word sum wraps and can differ from the unbounded-sum reading (see
the counterexample). -/
theorem checksum_follows_spec_algorithm (b : List Byte) (_hne : b ≠ [])
    (hsmall : rawSum b < 4294967296) : checksum b = specChecksum b := by
  have hle := foldCarry_le (rawSum b)
  rw [checksum_rawSum, Nat.mod_eq_of_lt hsmall, specChecksum]
  omega

/-- Witness for C2: the 4-byte all-zero buffer is non-empty, its word sum
is below `2^32`, and the code checksum agrees with the spec algorithm. -/
theorem checksum_follows_spec_algorithm_witness :
    (([0, 0, 0, 0] : List Byte) ≠ [] ∧ rawSum [0, 0, 0, 0] < 4294967296) ∧
    checksum [0, 0, 0, 0] = specChecksum [0, 0, 0, 0] :=
  ⟨⟨by decide, by decide⟩,
    checksum_follows_spec_algorithm [0, 0, 0, 0] (by decide) (by decide)⟩

/-- Counterexample for C2 as stated: on the 131076-byte all-`0xFF` buffer
the word sum is `65538 * 0xFFFF = 0x1_0000_FFFE ≥ 2^32`; the code's 32-bit
accumulator wraps to `0xFFFE` and the function returns `1`, while the
claim's unbounded-sum algorithm returns `0`. -/
theorem checksum_spec_wrap_counterexample :
    checksum (List.replicate 131076 255) = 1 ∧
    specChecksum (List.replicate 131076 255) = 0 ∧
    checksum (List.replicate 131076 255) ≠ specChecksum (List.replicate 131076 255) := by
  have hraw : rawSum (List.replicate 131076 (255 : Byte)) = 4295032830 := by
    have hp := pairSum_replicate 131076 255 65538 0 (by norm_num)
    have hcond : ¬((131076 - 1) % 2 = 0) := by norm_num
    have harg : (131076 - 1 + 1) / 2 = 65538 := by norm_num
    simp only [rawSum, List.length_replicate]
    rw [if_neg hcond, harg, hp]
    decide
  have h1 : checksum (List.replicate 131076 (255 : Byte)) = 1 := by
    rw [checksum_rawSum, hraw, foldCarry_closed]
    decide
  have h2 : specChecksum (List.replicate 131076 (255 : Byte)) = 0 := by
    rw [specChecksum, hraw, foldCarry_closed]
    decide
  exact ⟨h1, h2, by rw [h1, h2]; decide⟩

/-- Claim C8: the checksum of `00000000` is `0xFFFF`, the checksum of the
51-byte embedding-protocol packet is `0x8b78`, and the checksum of
`000000001234123412341234` is `0xb72f`. -/
theorem checksum_test_vectors :
    checksum [0, 0, 0, 0] = 65535 ∧
    checksum [0, 0, 0, 0, 169, 29, 199, 54, 92, 200, 97, 36, 10, 9, 0, 2, 255, 255, 255, 0,
      10, 9, 0, 1, 8, 8, 8, 8, 1, 1, 1, 1, 5, 20, 8, 186, 213, 231, 137, 170, 254, 130, 26,
      202, 10, 237, 197, 83, 141, 47, 61] = 35704 ∧
    checksum [0, 0, 0, 0, 18, 52, 18, 52, 18, 52, 18, 52] = 46895 := by
  refine ⟨?_, ?_, ?_⟩ <;> (rw [checksum_rawSum, foldCarry_closed]; decide)

/-- Claim C10: `checksum` is safe exactly on non-empty buffers — on a
non-empty buffer every slice access of the loop and of the final-byte fold
is in bounds, so the panic-aware model returns the computed value, while on
the empty buffer `len - 1` underflows and the function panics (`none`). -/
theorem checksum_safe_iff_nonempty (b : List Byte) :
    checksumP b = if b = [] then none else some (checksum b) := by
  cases b with
  | nil => rfl
  | cons x xs =>
    have hne : (x :: xs) ≠ [] := by simp
    have hlen0 : ¬((x :: xs).length = 0) := by simp
    have hs := csumStepP_eq (x :: xs) (((x :: xs).length - 1 + 1) / 2) 0 0 (by
      simp only [List.length_cons]
      omega)
    have hidx := getElemQ_eq (x :: xs) ((x :: xs).length - 1) (by simp)
    simp only [checksumP, if_neg hlen0, if_neg hne, hs, hidx, checksum]
    by_cases hpar : ((x :: xs).length - 1) % 2 = 0
    · rw [if_pos hpar, if_pos hpar]
    · rw [if_neg hpar, if_neg hpar]

/-- Claim C5: `strip_ipv4_header b` returns the sub-slice of `b` starting
at offset `l = (low nibble of b[0]) * 4` exactly when `len(b) ≥ 20`, the
top nibble of `b[0]` equals 4, and `20 ≤ l ≤ len(b)`; if any check fails
it returns the original buffer unchanged. -/
theorem strip_ipv4_header_spec (b : List Byte) :
    (20 ≤ b.length → (b.getD 0 0).val / 16 = 4 →
      20 ≤ ((b.getD 0 0).val % 16) * 4 → ((b.getD 0 0).val % 16) * 4 ≤ b.length →
      strip_ipv4_header b = b.drop (((b.getD 0 0).val % 16) * 4)) ∧
    (b.length < 20 ∨ (b.getD 0 0).val / 16 ≠ 4 ∨ ((b.getD 0 0).val % 16) * 4 < 20 ∨
      b.length < ((b.getD 0 0).val % 16) * 4 →
      strip_ipv4_header b = b) := by
  have hshr : ∀ z : Nat, z >>> 4 = z / 16 := fun z => by
    rw [Nat.shiftRight_eq_div_pow]
  have hand : ∀ z : Nat, z &&& 15 = z % 16 := fun z => by
    have h := Nat.and_pow_two_sub_one_eq_mod z 4
    norm_num at h
    exact h
  have hshl : ∀ z : Nat, z <<< 2 = z * 4 := fun z => by
    rw [Nat.shiftLeft_eq]
  constructor
  · intro h1 h2 h3 h4
    simp only [strip_ipv4_header, hshr, hand, hshl]
    rw [if_neg (by omega), if_neg (by omega), if_neg (by omega)]
  · intro h
    simp only [strip_ipv4_header, hshr, hand, hshl]
    rcases h with h | h | h | h <;> split_ifs <;> first | rfl | omega

/-- Witness for C5: a 20-byte buffer with first byte `0x45` (version 4,
header length 5 words = 20 bytes) is stripped to the sub-slice at
offset 20. -/
theorem strip_ipv4_header_spec_witness :
    strip_ipv4_header [69, 0, 0, 0, 0, 0, 0, 0, 0, 0, 0, 0, 0, 0, 0, 0, 0, 0, 0, 0] =
      ([69, 0, 0, 0, 0, 0, 0, 0, 0, 0, 0, 0, 0, 0, 0, 0, 0, 0, 0, 0] : List Byte).drop
        (((([69, 0, 0, 0, 0, 0, 0, 0, 0, 0, 0, 0, 0, 0, 0, 0, 0, 0, 0, 0] :
          List Byte).getD 0 0).val % 16) * 4) :=
  (strip_ipv4_header_spec _).1 (by decide) (by decide) (by decide) (by decide)

/-- Claim C1: for each of `dial_tcp`, `dial_udp` and `dial_icmp`, a
`V4` address populates exactly the first slot on success and propagates
the error on failure; a `V6` address likewise populates exactly the second
slot; `Both` returns both slots when both families succeed, the one
successful slot (with the other empty and the failure absorbed) when
exactly one succeeds, and the IPv4 attempt's error when both fail. -/
theorem dial_outcomes {A4 A6 E T : Type} (tcp4 : A4 → Except E T) (tcp6 : A6 → Except E T)
    (udp4 : A4 → Except E T) (udp6 : A6 → Except E T)
    (icmp4 : A4 → Except E T) (icmp6 : A6 → Except E T) :
    ((∀ a s, tcp4 a = .ok s → DualAddr.dial_tcp tcp4 tcp6 (.V4 a) = .ok (some s, none)) ∧
     (∀ a e, tcp4 a = .error e → DualAddr.dial_tcp tcp4 tcp6 (.V4 a) = .error e) ∧
     (∀ a s, tcp6 a = .ok s → DualAddr.dial_tcp tcp4 tcp6 (.V6 a) = .ok (none, some s)) ∧
     (∀ a e, tcp6 a = .error e → DualAddr.dial_tcp tcp4 tcp6 (.V6 a) = .error e) ∧
     (∀ a4 a6 s1 s2, tcp4 a4 = .ok s1 → tcp6 a6 = .ok s2 →
        DualAddr.dial_tcp tcp4 tcp6 (.Both a4 a6) = .ok (some s1, some s2)) ∧
     (∀ a4 a6 s1 e2, tcp4 a4 = .ok s1 → tcp6 a6 = .error e2 →
        DualAddr.dial_tcp tcp4 tcp6 (.Both a4 a6) = .ok (some s1, none)) ∧
     (∀ a4 a6 e1 s2, tcp4 a4 = .error e1 → tcp6 a6 = .ok s2 →
        DualAddr.dial_tcp tcp4 tcp6 (.Both a4 a6) = .ok (none, some s2)) ∧
     (∀ a4 a6 e1 e2, tcp4 a4 = .error e1 → tcp6 a6 = .error e2 →
        DualAddr.dial_tcp tcp4 tcp6 (.Both a4 a6) = .error e1)) ∧
    ((∀ a s, udp4 a = .ok s → DualAddr.dial_udp udp4 udp6 (.V4 a) = .ok (some s, none)) ∧
     (∀ a e, udp4 a = .error e → DualAddr.dial_udp udp4 udp6 (.V4 a) = .error e) ∧
     (∀ a s, udp6 a = .ok s → DualAddr.dial_udp udp4 udp6 (.V6 a) = .ok (none, some s)) ∧
     (∀ a e, udp6 a = .error e → DualAddr.dial_udp udp4 udp6 (.V6 a) = .error e) ∧
     (∀ a4 a6 s1 s2, udp4 a4 = .ok s1 → udp6 a6 = .ok s2 →
        DualAddr.dial_udp udp4 udp6 (.Both a4 a6) = .ok (some s1, some s2)) ∧
     (∀ a4 a6 s1 e2, udp4 a4 = .ok s1 → udp6 a6 = .error e2 →
        DualAddr.dial_udp udp4 udp6 (.Both a4 a6) = .ok (some s1, none)) ∧
     (∀ a4 a6 e1 s2, udp4 a4 = .error e1 → udp6 a6 = .ok s2 →
        DualAddr.dial_udp udp4 udp6 (.Both a4 a6) = .ok (none, some s2)) ∧
     (∀ a4 a6 e1 e2, udp4 a4 = .error e1 → udp6 a6 = .error e2 →
        DualAddr.dial_udp udp4 udp6 (.Both a4 a6) = .error e1)) ∧
    ((∀ a s, icmp4 a = .ok s → DualAddr.dial_icmp icmp4 icmp6 (.V4 a) = .ok (some s, none)) ∧
     (∀ a e, icmp4 a = .error e → DualAddr.dial_icmp icmp4 icmp6 (.V4 a) = .error e) ∧
     (∀ a s, icmp6 a = .ok s → DualAddr.dial_icmp icmp4 icmp6 (.V6 a) = .ok (none, some s)) ∧
     (∀ a e, icmp6 a = .error e → DualAddr.dial_icmp icmp4 icmp6 (.V6 a) = .error e) ∧
     (∀ a4 a6 s1 s2, icmp4 a4 = .ok s1 → icmp6 a6 = .ok s2 →
        DualAddr.dial_icmp icmp4 icmp6 (.Both a4 a6) = .ok (some s1, some s2)) ∧
     (∀ a4 a6 s1 e2, icmp4 a4 = .ok s1 → icmp6 a6 = .error e2 →
        DualAddr.dial_icmp icmp4 icmp6 (.Both a4 a6) = .ok (some s1, none)) ∧
     (∀ a4 a6 e1 s2, icmp4 a4 = .error e1 → icmp6 a6 = .ok s2 →
        DualAddr.dial_icmp icmp4 icmp6 (.Both a4 a6) = .ok (none, some s2)) ∧
     (∀ a4 a6 e1 e2, icmp4 a4 = .error e1 → icmp6 a6 = .error e2 →
        DualAddr.dial_icmp icmp4 icmp6 (.Both a4 a6) = .error e1)) := by
  refine ⟨⟨?_, ?_, ?_, ?_, ?_, ?_, ?_, ?_⟩, ⟨?_, ?_, ?_, ?_, ?_, ?_, ?_, ?_⟩,
    ⟨?_, ?_, ?_, ?_, ?_, ?_, ?_, ?_⟩⟩ <;> intros <;>
    simp_all [DualAddr.dial_tcp, DualAddr.dial_udp, DualAddr.dial_icmp, any_success]

/-- Witness for C1: the `Both` case of `dial_tcp` where IPv4 succeeds and
IPv6 fails returns the IPv4 socket with the second slot empty. -/
theorem dial_outcomes_witness :
    DualAddr.dial_tcp (fun _ : Nat => (Except.ok 7 : Except Nat Nat))
      (fun _ : Nat => (Except.error 3 : Except Nat Nat)) (.Both 0 0) = .ok (some 7, none) :=
  (dial_outcomes (fun _ : Nat => (Except.ok 7 : Except Nat Nat))
    (fun _ : Nat => (Except.error 3 : Except Nat Nat))
    (fun _ : Nat => (Except.ok 0 : Except Nat Nat)) (fun _ : Nat => .ok 0)
    (fun _ : Nat => .ok 0) (fun _ : Nat => .ok 0)).1.2.2.2.2.2.1 0 0 7 3 rfl rfl

/-- Claim C7: every `Ok` outcome of `dial_tcp`, `dial_udp` or `dial_icmp`
has at least one populated slot — `(None, None)` is never returned as a
success. -/
theorem dial_never_both_none {A4 A6 E T : Type} (f4 : A4 → Except E T)
    (f6 : A6 → Except E T) :
    (∀ da p, DualAddr.dial_tcp f4 f6 da = .ok p →
      p.1.isSome = true ∨ p.2.isSome = true) ∧
    (∀ da p, DualAddr.dial_udp f4 f6 da = .ok p →
      p.1.isSome = true ∨ p.2.isSome = true) ∧
    (∀ da p, DualAddr.dial_icmp f4 f6 da = .ok p →
      p.1.isSome = true ∨ p.2.isSome = true) := by
  refine ⟨?_, ?_, ?_⟩
  all_goals
    rintro da p h
    cases da with
    | V4 a =>
      cases hf : f4 a with
      | ok s =>
        simp only [DualAddr.dial_tcp, DualAddr.dial_udp, DualAddr.dial_icmp, hf] at h
        injection h with h2
        cases h2
        simp
      | error e =>
        simp only [DualAddr.dial_tcp, DualAddr.dial_udp, DualAddr.dial_icmp, hf] at h
        exact Except.noConfusion h
    | V6 a =>
      cases hf : f6 a with
      | ok s =>
        simp only [DualAddr.dial_tcp, DualAddr.dial_udp, DualAddr.dial_icmp, hf] at h
        injection h with h2
        cases h2
        simp
      | error e =>
        simp only [DualAddr.dial_tcp, DualAddr.dial_udp, DualAddr.dial_icmp, hf] at h
        exact Except.noConfusion h
    | Both a4 a6 =>
      cases hf4 : f4 a4 with
      | ok s1 =>
        cases hf6 : f6 a6 with
        | ok s2 =>
          simp only [DualAddr.dial_tcp, DualAddr.dial_udp, DualAddr.dial_icmp,
            any_success, hf4, hf6] at h
          injection h with h2
          cases h2
          simp
        | error e2 =>
          simp only [DualAddr.dial_tcp, DualAddr.dial_udp, DualAddr.dial_icmp,
            any_success, hf4, hf6] at h
          injection h with h2
          cases h2
          simp
      | error e1 =>
        cases hf6 : f6 a6 with
        | ok s2 =>
          simp only [DualAddr.dial_tcp, DualAddr.dial_udp, DualAddr.dial_icmp,
            any_success, hf4, hf6] at h
          injection h with h2
          cases h2
          simp
        | error e2 =>
          simp only [DualAddr.dial_tcp, DualAddr.dial_udp, DualAddr.dial_icmp,
            any_success, hf4, hf6] at h
          exact Except.noConfusion h

/-- Witness for C7: a concrete `Ok` outcome of `dial_tcp` has a populated
slot. -/
theorem dial_never_both_none_witness :
    ((some 7 : Option Nat), (none : Option Nat)).1.isSome = true ∨
    ((some 7 : Option Nat), (none : Option Nat)).2.isSome = true :=
  (dial_never_both_none (fun _ : Nat => (Except.ok 7 : Except Nat Nat))
    (fun _ : Nat => (Except.error 3 : Except Nat Nat))).1 (.V4 0) (some 7, none) rfl

/-- Claim C4 (code bug at `IPv6Icmp`): the second `match` of `bind` sets
the IPv6-only option only for `IPv6Tcp | IPv6Udp`; `IPv6Icmp` (an IPv6
kind by the first `match`, which gives it `Domain::ipv6`) falls through to
the `_` branch, which never calls `set_only_v6` and parses the address as
`SocketAddrV4`.  Evaluated at the failing input — `IPv6Icmp` with an IPv6
address literal such as `"[::1]:0"`, whose `SocketAddrV4` parse fails —
`bind` panics on the `.unwrap()` with the IPv6-only option never set. -/
theorem bind_ipv6icmp_panics :
    @bind Unit Unit Unit BindType.IPv6Icmp
      { newRes := .ok (), setV6Res := .ok (), parse4 := none, parse6 := some (),
        bindRes := .ok (), listenRes := .ok () } = .panic := rfl

/-- Counterexample for C6 as stated: with every OS call set to succeed but
the address string malformed (its `SocketAddrV4` parse fails), `bind`
panics on the `.unwrap()` instead of returning an error. -/
theorem bind_parse_failure_counterexample :
    @bind Unit Unit Unit BindType.IPv4Tcp
      { newRes := .ok (), setV6Res := .ok (), parse4 := none, parse6 := some (),
        bindRes := .ok (), listenRes := .ok () } = .panic ∧
    @bind Unit Unit Unit BindType.IPv4Tcp
      { newRes := .ok (), setV6Res := .ok (), parse4 := none, parse6 := some (),
        bindRes := .ok (), listenRes := .ok () } ≠ .err () :=
  ⟨rfl, fun h => nomatch h⟩

/-- Claim C6 (amended): `bind` fails by returning an error whenever socket
creation, option-setting, or the bind/listen system call fails; but a
malformed address string (the parse for the family the branch expects
returns nothing) makes `bind` panic on `.unwrap()` rather than return an
error. -/
theorem bind_error_propagation {A4 A6 E : Type} (t : BindType) (env : OsEnv A4 A6 E) :
    (∀ e, env.newRes = .error e → bind t env = .err e) ∧
    (t.v6Branch = true → env.newRes = .ok () → ∀ e, env.setV6Res = .error e →
      bind t env = .err e) ∧
    (t.v6Branch = true → env.newRes = .ok () → env.setV6Res = .ok () →
      env.parse6 = none → bind t env = .panic) ∧
    (t.v6Branch = false → env.newRes = .ok () → env.parse4 = none →
      bind t env = .panic) ∧
    (t.v6Branch = true → env.newRes = .ok () → env.setV6Res = .ok () →
      ∀ a, env.parse6 = some a → ∀ e, env.bindRes = .error e → bind t env = .err e) ∧
    (t.v6Branch = false → env.newRes = .ok () → ∀ a, env.parse4 = some a →
      ∀ e, env.bindRes = .error e → bind t env = .err e) ∧
    (t = .IPv4Tcp → env.newRes = .ok () → ∀ a, env.parse4 = some a →
      env.bindRes = .ok () → ∀ e, env.listenRes = .error e → bind t env = .err e) ∧
    (t = .IPv6Tcp → env.newRes = .ok () → env.setV6Res = .ok () →
      ∀ a, env.parse6 = some a → env.bindRes = .ok () → ∀ e, env.listenRes = .error e →
      bind t env = .err e) := by
  cases t <;>
    refine ⟨?_, ?_, ?_, ?_, ?_, ?_, ?_, ?_⟩ <;> intros <;>
      simp_all [bind, BindType.v6Branch]

/-- Witness for C6: a failed socket creation propagates its error. -/
theorem bind_error_propagation_witness :
    @bind Unit Unit Nat BindType.IPv4Udp
      { newRes := .error 5, setV6Res := .ok (), parse4 := some (), parse6 := some (),
        bindRes := .ok (), listenRes := .ok () } = .err 5 :=
  (bind_error_propagation .IPv4Udp
    { newRes := .error 5, setV6Res := .ok (), parse4 := some (), parse6 := some (),
      bindRes := .ok (), listenRes := .ok () }).1 5 rfl

end PoohRs
